import Mathlib

/-!
Verification development for the AMBER-ICI Document-to-Graph Pipeline and
Model Orchestration Engine.  The definitions below are shallow embeddings of
the Python sources:

  * src/graph/entity_extractor.py  (EntityExtractor)
  * src/graph/graph_builder.py     (GraphBuilder)
  * src/backend/main.py            (chain_models / generate_parallel)
  * src/agents/investigative_agent.py (InvestigativeAgent)

Python regular expressions are embedded as explicit backtracking matchers,
one per pattern of the fixed pattern table of the extractor; in Python, `\w` and
`\s` classes are modelled over their ASCII subsets (all texts of interest
here are ASCII).  `datetime.now()` is modelled as an external clock.
-/

namespace AmberICI

/-! ## Entity extractor (src/graph/entity_extractor.py) -/

/-- ASCII model of the Python regex `\w` class (word character). -/
def isWordChar (c : Char) : Bool :=
  c.isAlpha || c.isDigit || c == '_'

/-- ASCII model of the Python regex `\s` class (whitespace). -/
def isSpaceChar (c : Char) : Bool :=
  c == ' ' || c == '\t' || c == '\n' || c == '\r'

/-- Python word boundary `\b` between two (optional) adjacent characters:
holds when exactly one side is a word character. -/
def bd (l r : Option Char) : Bool :=
  (match l with | some c => isWordChar c | none => false)
    != (match r with | some c => isWordChar c | none => false)

/-- Length of the maximal prefix run of characters satisfying `p`
(the forced extent of a greedy character-class quantifier). -/
def runLen (p : Char → Bool) : List Char → Nat
  | [] => 0
  | c :: cs => if p c then runLen p cs + 1 else 0

/-- The first `n` characters exist and are decimal digits (`\d{n}`). -/
def digitsN (n : Nat) (cs : List Char) : Bool :=
  decide (n ≤ runLen Char.isDigit cs)

/-- Character class `[A-Za-z0-9._%+-]` (local part of the email pattern). -/
def emailLocalChar (c : Char) : Bool :=
  c.isAlpha || c.isDigit || c == '.' || c == '_' || c == '%' || c == '+' || c == '-'

/-- Character class `[A-Za-z0-9.-]` (domain part of the email pattern). -/
def emailDomainChar (c : Char) : Bool :=
  c.isAlpha || c.isDigit || c == '.' || c == '-'

/-- Character class `[A-Z|a-z]` (top-level-domain part; the source class
literally contains `|`). -/
def emailTldChar (c : Char) : Bool :=
  c.isAlpha || c == '|'

/-- Backtracking over `[A-Z|a-z]{2,}\b`: try tld lengths from `l3` down
to 2, requiring the trailing word boundary; returns consumed length or 0. -/
def emailTld (cs3 : List Char) : Nat → Nat
  | 0 => 0
  | 1 => 0
  | l3 + 2 =>
    if bd (cs3.get? (l3 + 1)) (cs3.get? (l3 + 2)) then l3 + 2
    else emailTld cs3 (l3 + 1)

/-- Backtracking over `[A-Za-z0-9.-]+\.[A-Z|a-z]{2,}\b`: try domain lengths
from `l2` down to 1; returns total consumed length after the `@` or 0. -/
def emailDomain (cs2 : List Char) (l2 : Nat) : Nat :=
  match l2 with
  | 0 => 0
  | l2' + 1 =>
    if cs2.get? (l2' + 1) = some '.' then
      let cs3 := cs2.drop (l2' + 2)
      let r := emailTld cs3 (runLen emailTldChar cs3)
      if r = 0 then emailDomain cs2 l2' else (l2' + 1) + 1 + r
    else emailDomain cs2 l2'

/-- Matcher for `\b[A-Za-z0-9._%+-]+@[A-Za-z0-9.-]+\.[A-Z|a-z]{2,}\b`
at the current position (`prev` is the preceding character); returns the
match length, 0 meaning no match (these patterns never match empty). -/
def matchEmail (prev : Option Char) (cs : List Char) : Nat :=
  if bd prev cs.head? then
    let l1 := runLen emailLocalChar cs
    -- `@` is not in the local class, so the greedy `+` extent is forced
    if l1 = 0 then 0
    else if cs.get? l1 = some '@' then
      let cs2 := cs.drop (l1 + 1)
      let r := emailDomain cs2 (runLen emailDomainChar cs2)
      if r = 0 then 0 else l1 + 1 + r
    else 0
  else 0

/-- Matcher for `https?://[^\s]+`. -/
def matchUrl (_prev : Option Char) (cs : List Char) : Nat :=
  match cs with
  | 'h' :: 't' :: 't' :: 'p' :: 's' :: ':' :: '/' :: '/' :: rest =>
    let r := runLen (fun c => !isSpaceChar c) rest
    if r = 0 then 0 else 8 + r
  | 'h' :: 't' :: 't' :: 'p' :: ':' :: '/' :: '/' :: rest =>
    let r := runLen (fun c => !isSpaceChar c) rest
    if r = 0 then 0 else 7 + r
  | _ => 0

/-- `[-.]` separator class of the phone pattern. -/
def isSepChar (c : Char) : Bool := c == '-' || c == '.'

/-- Tail `\d{4}\b` of the phone pattern. -/
def phoneTail2 (cs : List Char) : Bool :=
  digitsN 4 cs && bd (cs.get? 3) (cs.get? 4)

/-- Tail `\d{3}[-.]?\d{4}\b` of the phone pattern; returns consumed length
or 0 (greedy optional separator, with fallback). -/
def phoneTail1 (cs : List Char) : Nat :=
  if digitsN 3 cs then
    let withSep :=
      match cs.get? 3 with
      | some c => if isSepChar c && phoneTail2 (cs.drop 4) then 3 + 1 + 4 else 0
      | none => 0
    if withSep ≠ 0 then withSep
    else if phoneTail2 (cs.drop 3) then 3 + 4 else 0
  else 0

/-- Matcher for `\b\d{3}[-.]?\d{3}[-.]?\d{4}\b`. -/
def matchPhone (prev : Option Char) (cs : List Char) : Nat :=
  if bd prev cs.head? && digitsN 3 cs then
    let withSep :=
      match cs.get? 3 with
      | some c =>
        if isSepChar c then
          let r := phoneTail1 (cs.drop 4)
          if r = 0 then 0 else 3 + 1 + r
        else 0
      | none => 0
    if withSep ≠ 0 then withSep
    else
      let r := phoneTail1 (cs.drop 3)
      if r = 0 then 0 else 3 + r
  else 0

/-- Slash-or-dash separator class of the date pattern. -/
def isDateSep (c : Char) : Bool := c == '/' || c == '-'

/-- Tail `\d{2,4}\b` of the date pattern: greedy lengths 4, 3, 2 with the
trailing word boundary; returns consumed length or 0. -/
def dateTail (cs : List Char) : Nat :=
  if digitsN 4 cs && bd (cs.get? 3) (cs.get? 4) then 4
  else if digitsN 3 cs && bd (cs.get? 2) (cs.get? 3) then 3
  else if digitsN 2 cs && bd (cs.get? 1) (cs.get? 2) then 2
  else 0

/-- Middle `\d{1,2}` plus slash-or-dash separator then tail, trying the
greedy two-digit form first;
returns consumed length or 0. -/
def dateMid (cs : List Char) : Nat :=
  let try2 :=
    if digitsN 2 cs then
      match cs.get? 2 with
      | some c =>
        if isDateSep c then
          let r := dateTail (cs.drop 3)
          if r = 0 then 0 else 2 + 1 + r
        else 0
      | none => 0
    else 0
  if try2 ≠ 0 then try2
  else if digitsN 1 cs then
    match cs.get? 1 with
    | some c =>
      if isDateSep c then
        let r := dateTail (cs.drop 2)
        if r = 0 then 0 else 1 + 1 + r
      else 0
    | none => 0
  else 0

/-- Matcher for the date pattern: `\b`, one or two digits, slash-or-dash,
one or two digits, slash-or-dash, `\d{2,4}`, `\b`. -/
def matchDate (prev : Option Char) (cs : List Char) : Nat :=
  if bd prev cs.head? then
    let try2 :=
      if digitsN 2 cs then
        match cs.get? 2 with
        | some c =>
          if isDateSep c then
            let r := dateMid (cs.drop 3)
            if r = 0 then 0 else 2 + 1 + r
          else 0
        | none => 0
      else 0
    if try2 ≠ 0 then try2
    else if digitsN 1 cs then
      match cs.get? 1 with
      | some c =>
        if isDateSep c then
          let r := dateMid (cs.drop 2)
          if r = 0 then 0 else 1 + 1 + r
        else 0
      | none => 0
    else 0
  else 0

/-- Greedy `(?:,\d{3})*` of the money pattern: total consumed length.
`fuel` bounds the iteration count; each iteration consumes four
characters, so `fuel = cs.length` always suffices. -/
def commaGroupsAux : Nat → List Char → Nat
  | 0, _ => 0
  | fuel + 1, cs =>
    match cs with
    | ',' :: rest =>
      if digitsN 3 rest then 4 + commaGroupsAux fuel (rest.drop 3) else 0
    | _ => 0

/-- Greedy `(?:,\d{3})*` of the money pattern. -/
def commaGroups (cs : List Char) : Nat := commaGroupsAux cs.length cs

/-- Matcher for `\$\d+(?:,\d{3})*(?:\.\d{2})?` (no word boundaries). -/
def matchMoney (_prev : Option Char) (cs : List Char) : Nat :=
  match cs with
  | '$' :: rest =>
    let d := runLen Char.isDigit rest
    if d = 0 then 0
    else
      let afterInt := rest.drop d
      let g := commaGroups afterInt
      let afterGroups := afterInt.drop g
      let cents :=
        match afterGroups with
        | '.' :: r2 => if digitsN 2 r2 then 3 else 0
        | _ => 0
      1 + d + g + cents
  | _ => 0

/-- The maximal run never exceeds the text length. -/
theorem runLen_le_length (p : Char → Bool) : ∀ cs : List Char, runLen p cs ≤ cs.length := by
  intro cs
  induction cs with
  | nil => simp [runLen]
  | cons c cs ih =>
    simp only [runLen, List.length_cons]
    split <;> omega

/-- One word `[A-Z][a-z]+` of the capitalized pattern; consumed length or 0. -/
def capWord : List Char → Nat
  | [] => 0
  | c :: rest =>
    if c.isUpper then
      let r := runLen (fun x => x.isLower) rest
      if r = 0 then 0 else 1 + r
    else 0

/-- Greedy iterations of `(?:\s+[A-Z][a-z]+)*`: the list of per-iteration
consumed lengths (each at least 3).  `fuel` bounds the iteration count;
each iteration consumes at least three characters, so `fuel = cs.length`
always suffices. -/
def capItersAux : Nat → List Char → List Nat
  | 0, _ => []
  | fuel + 1, cs =>
    let s := runLen isSpaceChar cs
    if s = 0 then []
    else
      let w := capWord (cs.drop s)
      if w = 0 then []
      else (s + w) :: capItersAux fuel (cs.drop (s + w))

/-- Greedy iterations of `(?:\s+[A-Z][a-z]+)*`. -/
def capIters (cs : List Char) : List Nat := capItersAux cs.length cs

/-- Matcher for `\b[A-Z][a-z]+(?:\s+[A-Z][a-z]+)*\b`.  If the trailing
boundary fails after the fully greedy star, the engine backtracks by
dropping the last iteration, after which the boundary is met at the
whitespace that began the dropped iteration. -/
def matchCap (prev : Option Char) (cs : List Char) : Nat :=
  if bd prev cs.head? then
    let w := capWord cs
    if w = 0 then 0
    else
      let iters := capIters (cs.drop w)
      let full := w + iters.sum
      if bd (cs.get? (full - 1)) (cs.get? full) then full
      else if iters = [] then 0
      else w + (iters.dropLast).sum
  else 0

/-- Matcher for `\b[a-z]{4,}\b` (key-phrase tokenization over the lowered
text).  The greedy run is forced; shortening it places a lowercase letter
after the match, which can never satisfy `\b`. -/
def matchLowerWord (prev : Option Char) (cs : List Char) : Nat :=
  if bd prev cs.head? then
    let r := runLen (fun c => c.isLower) cs
    if r < 4 then 0
    else if bd (cs.get? (r - 1)) (cs.get? r) then r else 0
  else 0

/-- The character preceding position `i` of `s`, if any (for `\b`). -/
def prevChar (s : List Char) (i : Nat) : Option Char :=
  if i = 0 then none else s.get? (i - 1)

/-- `re.finditer` scan: leftmost, non-overlapping matches of `m` over `s`
starting at position `i`, as (start, length) pairs.  `fuel` bounds the
recursion; with `fuel = s.length` the scan always runs to the end of `s`
because every step advances the position by at least one. -/
def finditerAux (m : Option Char → List Char → Nat) (s : List Char) :
    Nat → Nat → List (Nat × Nat)
  | _, 0 => []
  | i, fuel + 1 =>
    if i < s.length then
      let l := m (prevChar s i) (s.drop i)
      if l = 0 then finditerAux m s (i + 1) fuel
      else (i, l) :: finditerAux m s (i + l) fuel
    else []

/-- All matches of `m` in `s`, in scan order. -/
def finditer (m : Option Char → List Char → Nat) (s : List Char) :
    List (Nat × Nat) :=
  finditerAux m s 0 s.length

/-- Entity record as built by `extract_entities` (the Python dict has the
five keys id, type, value, start, end; `stop` stands for the key "end"). -/
structure EntityR where
  id : String
  ty : String
  value : String
  start : Int
  stop : Int
deriving DecidableEq, Repr

/-- The fixed pattern table of the extractor, in source order
(email, url, phone, date, money). -/
def patternTable : List (String × (Option Char → List Char → Nat)) :=
  [("email", matchEmail), ("url", matchUrl), ("phone", matchPhone),
   ("date", matchDate), ("money", matchMoney)]

/-- Entity fields (type, value, start, end) before id assignment. -/
structure RawEnt where
  ty : String
  value : String
  start : Int
  stop : Int
deriving DecidableEq, Repr

/-- Pattern-matched raw entities of one pattern, in match order. -/
def patternRaw (ty : String) (m : Option Char → List Char → Nat)
    (s : List Char) : List RawEnt :=
  (finditer m s).map fun p =>
    ⟨ty, String.mk ((s.drop p.1).take p.2), (p.1 : Int), ((p.1 + p.2 : Nat) : Int)⟩

/-- The capitalized-word loop: for each match in order, skip values of
length ≤ 2 and values already in `seen` (case-sensitive exact-string
dedup), otherwise emit the entity and record the value as seen. -/
def namedAux (s : List Char) : List (Nat × Nat) → List String → List RawEnt
  | [], _ => []
  | p :: ps, seen =>
    let value := String.mk ((s.drop p.1).take p.2)
    if 2 < value.length && !seen.contains value then
      ⟨"named_entity", value, (p.1 : Int), ((p.1 + p.2 : Nat) : Int)⟩
        :: namedAux s ps (seen ++ [value])
    else namedAux s ps seen

/-- Capitalized-word raw entities (`seen_values` starts empty per call). -/
def namedRaw (s : List Char) : List RawEnt :=
  namedAux s (finditer matchCap s) []

/-- The fixed stop-word set of the extractor (src/graph/entity_extractor.py,
`_get_stop_words`). -/
def stopWords : List String :=
  ["the", "is", "at", "which", "on", "and", "a", "an", "as", "are",
   "was", "were", "been", "be", "have", "has", "had", "do", "does",
   "did", "will", "would", "could", "should", "may", "might", "must",
   "can", "this", "that", "these", "those", "i", "you", "he", "she",
   "it", "we", "they", "them", "their", "what", "which", "who", "when",
   "where", "why", "how", "all", "each", "every", "both", "few", "more",
   "most", "other", "some", "such", "no", "nor", "not", "only", "own",
   "same", "so", "than", "too", "very", "from", "with", "about", "into",
   "through", "during", "before", "after", "above", "below", "to", "from",
   "up", "down", "in", "out", "off", "over", "under", "again", "further",
   "then", "once"]

/-- Count word frequencies in first-encounter order (Python dict insertion
order), skipping stop words. -/
def countWords (ws : List String) : List (String × Nat) :=
  ws.foldl
    (fun acc w =>
      if stopWords.contains w then acc
      else if acc.any (fun p => p.1 == w) then
        acc.map (fun p => if p.1 == w then (p.1, p.2 + 1) else p)
      else acc ++ [(w, 1)])
    []

/-- Stable insertion into a count list sorted by descending count
(equal counts keep encounter order, as the stable Python `sorted`). -/
def insertDesc (x : String × Nat) : List (String × Nat) → List (String × Nat)
  | [] => [x]
  | y :: ys => if y.2 ≤ x.2 then x :: y :: ys else y :: insertDesc x ys

/-- Stable sort by descending count. -/
def sortDesc : List (String × Nat) → List (String × Nat)
  | [] => []
  | x :: xs => insertDesc x (sortDesc xs)

/-- `_extract_key_phrases`: most frequent lowercase alphabetic tokens of
length ≥ 4 not in the stop-word set, at most `maxPhrases` of them. -/
def extract_key_phrases (s : List Char) (maxPhrases : Nat := 10) : List String :=
  let lowered := s.map Char.toLower
  let words := (finditer matchLowerWord lowered).map
    (fun p => String.mk ((lowered.drop p.1).take p.2))
  ((sortDesc (countWords words)).take maxPhrases).map Prod.fst

/-- All raw entities of one extraction call, in output order: pattern
groups in table order, then named entities, then key phrases. -/
def rawEntities (s : List Char) : List RawEnt :=
  (patternTable.flatMap fun p => patternRaw p.1 p.2 s)
    ++ namedRaw s
    ++ (extract_key_phrases s).map (fun phrase => ⟨"key_phrase", phrase, -1, -1⟩)

/-- The `entity_id` counter: the k-th emitted entity gets id `entity_<k>`. -/
def numberFrom (k : Nat) : List RawEnt → List EntityR
  | [] => []
  | r :: rs => ⟨"entity_" ++ toString k, r.ty, r.value, r.start, r.stop⟩ :: numberFrom (k + 1) rs

/-- `EntityExtractor.extract_entities`: ids are assigned in output order
starting from `entity_0`. -/
def extract_entities (text : String) : List EntityR :=
  numberFrom 0 (rawEntities text.data)

/-! ## Graph builder (src/graph/graph_builder.py)

`build_graph` accepts arbitrary entity dicts; the keys it reads (`id`,
`value`, `type`, `source`, `start`) are modelled as optional fields. -/

/-- An entity dict as consumed by `GraphBuilder` (each field optional,
mirroring `dict.get`). -/
structure EntityD where
  id : Option String
  value : Option String
  ty : Option String
  source : Option String
  start : Option Int
deriving DecidableEq, Repr

/-- A graph node as built by `_add_node`. -/
structure NodeR where
  id : String
  label : String
  ty : String
  source : String
  data : EntityD
deriving DecidableEq, Repr

/-- A graph edge as built by `_create_edges`; `source`/`target` hold the
raw `entity.get("id")` values (possibly `None`). -/
structure EdgeR where
  id : String
  source : Option String
  target : Option String
  ty : String
  weight : Nat
deriving DecidableEq, Repr

/-- Python truthiness fallback `entity.get("id") or entity.get("value",
"unknown")`: a missing or empty id falls back to the value (default
`"unknown"`). -/
def nodeKey (e : EntityD) : String :=
  match e.id with
  | some s => if s = "" then e.value.getD "unknown" else s
  | none => e.value.getD "unknown"

/-- The node record `_add_node` builds for an entity. -/
def mkNode (e : EntityD) : NodeR :=
  ⟨nodeKey e, e.value.getD "", e.ty.getD "unknown", e.source.getD "default", e⟩

/-- Python `f"{x}"` rendering of an optional id (`None` prints as "None"). -/
def idStr : Option String → String
  | some s => s
  | none => "None"

/-- The edge record `_create_edges` builds for a related pair. -/
def mkEdge (e1 e2 : EntityD) : EdgeR :=
  ⟨idStr e1.id ++ "_" ++ idStr e2.id, e1.id, e2.id, "related", 1⟩

/-- `_add_node` over the accumulator (node list, known node-id set;
the Python set is modelled as a duplicate-free list). -/
def add_node (st : List NodeR × List String) (e : EntityD) :
    List NodeR × List String :=
  let nid := nodeKey e
  if nid ∈ st.2 then st
  else (st.1 ++ [mkNode e], st.2 ++ [nid])

/-- The node-creation loop of `build_graph`. -/
def buildNodes (st : List NodeR × List String) : List EntityD → List NodeR × List String
  | [] => st
  | e :: es => buildNodes (add_node st e) es

/-- `_are_related`: same `type` value (including both missing), or both
`start` offsets non-negative and within 200 of each other. -/
def are_related (e1 e2 : EntityD) : Bool :=
  if e1.ty == e2.ty then true
  else
    let s1 := e1.start.getD (-1)
    let s2 := e2.start.getD (-1)
    if 0 ≤ s1 && 0 ≤ s2 then decide ((s1 - s2).natAbs < 200) else false

/-- Grouping of entities by source tag, in first-occurrence key order with
per-group entity order preserved (Python dict of lists). -/
def insertGroup : List (String × List EntityD) → String → EntityD →
    List (String × List EntityD)
  | [], s, e => [(s, [e])]
  | (k, g) :: rest, s, e =>
    if k = s then (k, g ++ [e]) :: rest else (k, g) :: insertGroup rest s e

/-- The `source_groups` dict of `_create_edges`. -/
def groupBySource (es : List EntityD) : List (String × List EntityD) :=
  es.foldl (fun gs e => insertGroup gs (e.source.getD "default") e) []

/-- The nested pair loop of `_create_edges` within one source group:
for each entity, an edge to every later related entity of the group. -/
def pairEdges : List EntityD → List EdgeR
  | [] => []
  | e1 :: rest => (rest.filter (are_related e1)).map (mkEdge e1) ++ pairEdges rest

/-- `_create_edges`: edges of every source group, in group order. -/
def create_edges (es : List EntityD) : List EdgeR :=
  (groupBySource es).flatMap fun g => pairEdges g.2

/-- The result dict of `build_graph`. -/
structure GraphR where
  nodes : List NodeR
  edges : List EdgeR
  node_count : Nat
  edge_count : Nat
deriving DecidableEq, Repr

/-- `GraphBuilder.build_graph` (accumulators reset at call start): nodes
from the node loop, edges from `_create_edges`, and the two counts. -/
def build_graph (entities : List EntityD) : GraphR :=
  ⟨(buildNodes ([], []) entities).1, create_edges entities,
   (buildNodes ([], []) entities).1.length, (create_edges entities).length⟩

/-! ## Chain orchestration (src/backend/main.py) -/

/-- One event of a model backend stream, as consumed by the accumulation
loops (`"response" in chunk`, `chunk.get("done", False)`); an error event
carries no `response` key. -/
structure Chunk where
  response : Option String
  done : Bool
  error : Option String
deriving DecidableEq, Repr

/-- The token-accumulation loop shared by the sequential branch and
`generate_parallel`: append the `response` fragment of each chunk (that
of the `done` chunk included), stop at the first `done`. -/
def accumulate : List Chunk → String
  | [] => ""
  | c :: cs => (c.response.getD "") ++ (if c.done then "" else accumulate cs)

/-- A model backend: the stream of chunks produced for a (model, prompt)
pair (the ModelBackend collaborator behind `stream_ollama_response`). -/
def Backend : Type := String → String → List Chunk

/-- One entry of the chain result list (keys model, input, output;
the timestamp key is wall-clock only and not modelled). -/
structure ChainResult where
  model : String
  input : String
  output : String
deriving DecidableEq, Repr

/-- `generate_parallel`: accumulate the full response of one model. -/
def generate_parallel (backend : Backend) (model prompt : String) : String :=
  accumulate (backend model prompt)

/-- The sequential branch of `chain_models`: the accumulated output of
each step becomes the prompt of the next step. -/
def chainSequential (backend : Backend) : List String → String → List ChainResult
  | [], _ => []
  | m :: ms, prompt =>
    let out := accumulate (backend m prompt)
    ⟨m, prompt, out⟩ :: chainSequential backend ms out

/-- The parallel branch of `chain_models`: `asyncio.gather` returns the
per-task results in task order, and the tasks share no mutable state, so
the fan-out/fan-in is the order-preserving map below; `zip` then pairs the
models with their results in input order. -/
def chainParallel (backend : Backend) (models : List String) (prompt : String) :
    List ChainResult :=
  models.map fun m => ⟨m, prompt, generate_parallel backend m prompt⟩

/-! ## Investigative agent (src/agents/investigative_agent.py)

`datetime.now()` is modelled as an external clock: `execute` receives the
start and end instants, and each log entry takes its timestamp from a
clock indexed by the number of log events appended so far. -/

/-- One entry of the execution log of the agent. -/
structure LogEntry where
  timestamp : Nat
  message : String
deriving DecidableEq, Repr

/-- The mutable instance state of `InvestigativeAgent` (`__init__` sets
`execution_log = []`; `execute` never resets it). -/
structure AgentState where
  agent_type : String
  models : List String
  execution_log : List LogEntry
deriving DecidableEq, Repr

/-- The `parameters` dict keys the variant procedures read. -/
structure Params where
  data : Option String
  content : Option String
deriving DecidableEq, Repr

/-- The execution record returned by `execute`.  `steps` is the `"steps"`
key (initialized to `[]`); `execution_log` is the `"execution_log"` key,
set only on success; `error` is set only on failure. -/
structure AgentResult where
  agent_type : String
  task : String
  models : List String
  status : String
  start_time : Nat
  steps : List LogEntry
  output : Option String
  execution_log : Option (List LogEntry)
  error : Option String
  end_time : Nat
  duration_seconds : Int
deriving DecidableEq, Repr

/-- `_log_step`: append a timestamped message to the execution log. -/
def log_step (clock : Nat → Nat) (log : List LogEntry) (message : String) :
    List LogEntry :=
  log ++ [⟨clock log.length, message⟩]

/-- `_research_agent`: one output line per model, each model logged before
its line is appended; lines joined by a blank line. -/
def research_agent (clock : Nat → Nat) (models : List String) (task : String)
    (log : List LogEntry) : String × List LogEntry :=
  let log := log_step clock log "Starting research agent"
  let st := models.foldl
    (fun (acc : List String × List LogEntry) model =>
      let log := log_step clock acc.2 ("Querying model: " ++ model)
      (acc.1 ++ ["[" ++ model ++ "] Research on: " ++ task], log))
    ([], log)
  let result := String.intercalate "\n\n" st.1
  (result, log_step clock st.2 "Research completed")

/-- `_analysis_agent`. -/
def analysis_agent (clock : Nat → Nat) (models : List String) (task : String)
    (params : Params) (log : List LogEntry) : String × List LogEntry :=
  let log := log_step clock log "Starting analysis agent"
  let data := params.data.getD ""
  let st := models.foldl
    (fun (acc : List String × List LogEntry) model =>
      let log := log_step clock acc.2 ("Analyzing with model: " ++ model)
      (acc.1 ++ ["[" ++ model ++ "] Analysis of: " ++ task ++ "\nData: "
                  ++ (data.take 100) ++ "..."], log))
    ([], log)
  let result := String.intercalate "\n\n" st.1
  (result, log_step clock st.2 "Analysis completed")

/-- `_summary_agent`: uses only the first model, falling back to the
literal `"default"`. -/
def summary_agent (clock : Nat → Nat) (models : List String) (task : String)
    (params : Params) (log : List LogEntry) : String × List LogEntry :=
  let log := log_step clock log "Starting summary agent"
  let content := params.content.getD ""
  let model := models.head?.getD "default"
  let log := log_step clock log ("Generating summary with model: " ++ model)
  let result := "[" ++ model ++ "] Summary of: " ++ task
      ++ "\nContent length: " ++ toString content.length ++ " characters"
  (result, log_step clock log "Summary completed")

/-- `_investigation_agent`: four fixed sub-steps and a composed report. -/
def investigation_agent (clock : Nat → Nat) (models : List String)
    (task : String) (log : List LogEntry) : String × List LogEntry :=
  let log := log_step clock log "Starting investigation agent"
  let log := log_step clock log "Step 1: Information gathering"
  let info := "Gathering information about: " ++ task
  let log := log_step clock log "Step 2: Analysis"
  let analysis := "Analyzing findings for: " ++ task
  let log := log_step clock log "Step 3: Cross-referencing"
  let crossRef := "Cross-referencing data across sources"
  let log := log_step clock log "Step 4: Report generation"
  let report := "\nINVESTIGATION REPORT\n====================\nTask: " ++ task
      ++ "\nModels Used: " ++ String.intercalate ", " models
      ++ "\n\n1. Information Gathering:\n" ++ info
      ++ "\n\n2. Analysis:\n" ++ analysis
      ++ "\n\n3. Cross-Reference:\n" ++ crossRef
      ++ "\n\n4. Conclusion:\nInvestigation completed. See detailed findings above.\n"
  (report, log_step clock log "Investigation completed")

/-- The variant dispatch inside the `try` block of `execute` (string-tag
if-chain with the `"Unknown agent type: "` fallback). -/
def run_variant (clock : Nat → Nat) (agentType : String) (models : List String)
    (task : String) (params : Params) (log : List LogEntry) :
    String × List LogEntry :=
  if agentType = "research" then research_agent clock models task log
  else if agentType = "analysis" then analysis_agent clock models task params log
  else if agentType = "summary" then summary_agent clock models task params log
  else if agentType = "investigation" then investigation_agent clock models task log
  else ("Unknown agent type: " ++ agentType, log)

/-- The try/except envelope of `execute`, abstracted over the variant
procedure outcome: `Except.ok (output, log)` is normal completion,
`Except.error (message, partialLog)` is a raised exception (the log
mutations made before the raise persist on the instance).  On success the
record gets `output` and `execution_log`; on failure it gets `status
"failed"` and `error`; either way `steps` stays the empty list it was
initialized to, and `end_time`/`duration_seconds` are always set. -/
def execute_with (startT endT : Nat) (st : AgentState) (task : String)
    (outcome : Except (String × List LogEntry) (String × List LogEntry)) :
    AgentResult × AgentState :=
  match outcome with
  | .ok (out, log) =>
    (⟨st.agent_type, task, st.models, "completed", startT, [], some out,
      some log, none, endT, (endT : Int) - (startT : Int)⟩,
     { st with execution_log := log })
  | .error (msg, log) =>
    (⟨st.agent_type, task, st.models, "failed", startT, [], none,
      none, some msg, endT, (endT : Int) - (startT : Int)⟩,
     { st with execution_log := log })

/-- `InvestigativeAgent.execute`: the embedded variant procedures are
total, so the normal path always takes the `ok` branch. -/
def execute (clock : Nat → Nat) (startT endT : Nat) (st : AgentState)
    (task : String) (params : Params) : AgentResult × AgentState :=
  execute_with startT endT st task
    (Except.ok (run_variant clock st.agent_type st.models task params st.execution_log))

/-! ## Concrete inputs used by the theorems -/

/-- The scenario text of the extraction claim. -/
def testText : String :=
  "Contact Alice Smith at alice@example.com or 555-123-4567 on 01/02/2023 for $1,200.00"

/-- Offset invariant on a raw entity: real offsets `0 ≤ start < end`, or
the positionless sentinel `start = end = -1`. -/
def rawOk (r : RawEnt) : Bool :=
  (decide (0 ≤ r.start) && decide (r.start < r.stop))
    || (r.start == -1 && r.stop == -1)

/-- Offset invariant on an extracted entity. -/
def entOk (e : EntityR) : Bool :=
  (decide (0 ≤ e.start) && decide (e.start < e.stop))
    || (e.start == -1 && e.stop == -1)

/-! ## Supporting lemmas -/

/-- Every match the finditer scan emits has positive length (a zero answer
from a matcher means "no match here"). -/
theorem finditerAux_pos (m : Option Char → List Char → Nat) (s : List Char) :
    ∀ fuel i p, p ∈ finditerAux m s i fuel → 1 ≤ p.2 := by
  intro fuel
  induction fuel with
  | zero => intro i p hp; simp [finditerAux] at hp
  | succ fuel ih =>
    intro i p hp
    simp only [finditerAux] at hp
    split at hp
    · split at hp
      · exact ih _ p hp
      · rcases List.mem_cons.mp hp with h | h
        · subst h; omega
        · exact ih _ p h
    · simp at hp

/-- Matches of `finditer` have positive length. -/
theorem finditer_pos (m : Option Char → List Char → Nat) (s : List Char)
    (p : Nat × Nat) (hp : p ∈ finditer m s) : 1 ≤ p.2 :=
  finditerAux_pos m s s.length 0 p hp

/-- Pattern-matched raw entities carry real offsets. -/
theorem patternRaw_ok (ty : String) (m : Option Char → List Char → Nat)
    (s : List Char) : ∀ r ∈ patternRaw ty m s, rawOk r = true := by
  intro r hr
  simp only [patternRaw, List.mem_map] at hr
  obtain ⟨p, hp, rfl⟩ := hr
  have hpos := finditer_pos m s p hp
  simp only [rawOk, Bool.or_eq_true, Bool.and_eq_true, decide_eq_true_eq]
  left
  constructor
  · exact_mod_cast Nat.zero_le p.1
  · exact_mod_cast Nat.lt_add_of_pos_right hpos

/-- Named-entity raw entities carry real offsets, provided every match in
the list has positive length. -/
theorem namedAux_ok (s : List Char) :
    ∀ ps, (∀ p ∈ ps, 1 ≤ p.2) →
      ∀ seen, ∀ r ∈ namedAux s ps seen, rawOk r = true := by
  intro ps
  induction ps with
  | nil => intro _ seen r hr; simp [namedAux] at hr
  | cons p ps ih =>
    intro hps seen r hr
    simp only [namedAux] at hr
    split at hr
    · rcases List.mem_cons.mp hr with h | h
      · have hpos : 1 ≤ p.2 := hps p (List.mem_cons_self p ps)
        subst h
        simp only [rawOk, Bool.or_eq_true, Bool.and_eq_true, decide_eq_true_eq]
        left
        constructor
        · exact_mod_cast Nat.zero_le p.1
        · exact_mod_cast Nat.lt_add_of_pos_right hpos
      · exact ih (fun q hq => hps q (List.mem_cons_of_mem p hq)) _ r h
    · exact ih (fun q hq => hps q (List.mem_cons_of_mem p hq)) _ r hr

/-- Every raw entity of an extraction call satisfies the offset
invariant. -/
theorem rawEntities_ok (s : List Char) : ∀ r ∈ rawEntities s, rawOk r = true := by
  intro r hr
  simp only [rawEntities, List.mem_append] at hr
  rcases hr with (hr | hr) | hr
  · rw [List.mem_flatMap] at hr
    obtain ⟨pr, _, hr⟩ := hr
    exact patternRaw_ok pr.1 pr.2 s r hr
  · exact namedAux_ok s _ (fun p hp => finditer_pos matchCap s p hp) [] r hr
  · simp only [List.mem_map] at hr
    obtain ⟨phrase, _, rfl⟩ := hr
    simp [rawOk]

/-- Id assignment preserves the offset fields. -/
theorem numberFrom_ok : ∀ rs k, (∀ r ∈ rs, rawOk r = true) →
    ∀ e ∈ numberFrom k rs, entOk e = true := by
  intro rs
  induction rs with
  | nil => intro k _ e he; simp [numberFrom] at he
  | cons r rs ih =>
    intro k hrs e he
    simp only [numberFrom, List.mem_cons] at he
    rcases he with h | h
    · subst h
      have := hrs r (List.mem_cons_self r rs)
      simpa [entOk, rawOk] using this
    · exact ih (k + 1) (fun q hq => hrs q (List.mem_cons_of_mem r hq)) e h

/-! ## Claim theorems -/

/-- C8: for every text input, every entity returned by `extract_entities`
has either real offsets `0 ≤ start < end` or the positionless sentinel
`start = end = -1`; no entity mixes the sentinel with a real offset
(pattern and named-entity records carry real match offsets, key-phrase
records carry `start = end = -1`). -/
theorem extract_entities_offset_invariant (text : String) :
    (extract_entities text).all entOk = true := by
  rw [List.all_eq_true]
  intro e he
  exact numberFrom_ok (rawEntities text.data) 0 (rawEntities_ok text.data) e he

/-- C2 counterexample: on the scenario text, no extracted entity is a
named entity with value exactly "Alice Smith" — the greedy capitalized
pattern absorbs the adjacent capitalized word "Contact" into a single
match. -/
theorem no_alice_smith_named_entity :
    ¬ ∃ e ∈ extract_entities testText,
        e.ty = "named_entity" ∧ e.value = "Alice Smith" := by decide

/-- C2 amended: on the scenario text, `extract_entities` returns at least
one entity of each of the types email, phone, date, money, and at least
one named entity — whose value is "Contact Alice Smith", the full greedy
capitalized-phrase match containing "Alice Smith". -/
theorem extract_scenario_types :
    (∃ e ∈ extract_entities testText, e.ty = "email") ∧
    (∃ e ∈ extract_entities testText, e.ty = "phone") ∧
    (∃ e ∈ extract_entities testText, e.ty = "date") ∧
    (∃ e ∈ extract_entities testText, e.ty = "money") ∧
    (∃ e ∈ extract_entities testText,
        e.ty = "named_entity" ∧ e.value = "Contact Alice Smith") := by decide

/-- A backend whose stream for model `m1` fails mid-stream: the stream
ends with the single terminal error event `stream_ollama_response` yields
on a connection failure; model `m2` streams normally. -/
def failingBackend : Backend := fun model _prompt =>
  if model = "m1" then [⟨none, true, some "connection error"⟩]
  else [⟨some "ok2", true, none⟩]

/-- C1 (divergence witness): in a sequential chain where the backend
stream ends with an error event, the orchestrator records the empty string
as the output of step 1 and invokes step 2 with the empty string as
prompt; no
field of the chain result carries the error.  This is the behavior the
corrected contract of the spec forbids. -/
theorem sequential_chain_swallows_error :
    chainSequential failingBackend ["m1", "m2"] "P"
      = [⟨"m1", "P", ""⟩, ⟨"m2", "", "ok2"⟩] := by decide

/-- C6: in a parallel chain, the result order equals the input model order
(one result per model, stitched back by the task order of `asyncio.gather`
and by `zip`), and the input of every result entry is the shared prompt. -/
theorem parallel_chain_order_and_input (backend : Backend)
    (models : List String) (prompt : String) :
    (chainParallel backend models prompt).map ChainResult.model = models ∧
    (chainParallel backend models prompt).map ChainResult.input
      = List.replicate models.length prompt := by
  constructor
  · induction models with
    | nil => rfl
    | cons m ms ih => simpa [chainParallel] using ih
  · induction models with
    | nil => rfl
    | cons m ms ih => simpa [chainParallel, List.replicate_succ] using ih

/-! ## Graph-builder lemmas -/

/-- The known-id accumulator always lists exactly the ids of the
accumulated nodes. -/
theorem buildNodes_ids (es : List EntityD) :
    ∀ st : List NodeR × List String, st.2 = st.1.map NodeR.id →
      (buildNodes st es).2 = (buildNodes st es).1.map NodeR.id := by
  induction es with
  | nil => intro st h; simpa [buildNodes]
  | cons e es ih =>
    intro st h
    simp only [buildNodes]
    apply ih
    simp only [add_node]
    split
    · exact h
    · simp [h, mkNode]

/-- Node-id accumulation preserves duplicate-freedom. -/
theorem buildNodes_nodup (es : List EntityD) :
    ∀ st : List NodeR × List String, st.2.Nodup → (buildNodes st es).2.Nodup := by
  induction es with
  | nil => intro st h; simpa [buildNodes]
  | cons e es ih =>
    intro st h
    simp only [buildNodes]
    apply ih
    simp only [add_node]
    split
    · exact h
    · rename_i hnot
      simpa [List.nodup_append] using ⟨h, hnot⟩

/-- First-occurrence-wins: every accumulated node either was already in
the accumulator or is built from the first entity of the list whose node
key is the id of that node (a key not yet known to the accumulator). -/
theorem buildNodes_first_wins (es : List EntityD) :
    ∀ ns : List NodeR, ∀ ks : List String, ks = ns.map NodeR.id →
      ∀ n ∈ (buildNodes (ns, ks) es).1,
        n ∈ ns ∨ ∃ e, es.find? (fun e' => nodeKey e' == n.id) = some e
          ∧ n = mkNode e ∧ n.id ∉ ks := by
  induction es with
  | nil =>
    intro ns ks _ n hn
    simp only [buildNodes] at hn
    exact Or.inl hn
  | cons e es ih =>
    intro ns ks hks n hn
    simp only [buildNodes, add_node] at hn
    by_cases hmem : nodeKey e ∈ ks
    · simp only [if_pos hmem] at hn
      rcases ih ns ks hks n hn with h | ⟨e', hfind, hne, hnot⟩
      · exact Or.inl h
      · refine Or.inr ⟨e', ?_, hne, hnot⟩
        rw [List.find?_cons_of_neg]
        · exact hfind
        · simp only [beq_iff_eq]
          intro heq
          exact hnot (heq ▸ hmem)
    · simp only [if_neg hmem] at hn
      have hks' : ks ++ [nodeKey e] = (ns ++ [mkNode e]).map NodeR.id := by
        simp [hks, mkNode]
      rcases ih (ns ++ [mkNode e]) (ks ++ [nodeKey e]) hks' n hn with h | ⟨e', hfind, hne, hnot⟩
      · rcases List.mem_append.mp h with h | h
        · exact Or.inl h
        · simp only [List.mem_singleton] at h
          subst h
          refine Or.inr ⟨e, ?_, rfl, hmem⟩
          rw [List.find?_cons_of_pos]
          simp [mkNode]
      · have hnot1 : n.id ∉ ks := fun hk => hnot (List.mem_append.mpr (Or.inl hk))
        have hnot2 : n.id ≠ nodeKey e := by
          intro heq
          exact hnot (List.mem_append.mpr (Or.inr (by simp [heq])))
        refine Or.inr ⟨e', ?_, hne, hnot1⟩
        rw [List.find?_cons_of_neg]
        · exact hfind
        · simp only [beq_iff_eq]
          exact fun heq => hnot2 heq.symm

/-- The accumulated id set only grows. -/
theorem buildNodes_mono (es : List EntityD) :
    ∀ st : List NodeR × List String, ∀ k ∈ st.2, k ∈ (buildNodes st es).2 := by
  induction es with
  | nil => intro st k hk; simpa [buildNodes]
  | cons e es ih =>
    intro st k hk
    simp only [buildNodes]
    apply ih
    simp only [add_node]
    split
    · exact hk
    · exact List.mem_append.mpr (Or.inl hk)

/-- After the node loop, the node key of every processed entity is a known
node id. -/
theorem buildNodes_covers (es : List EntityD) :
    ∀ st : List NodeR × List String, ∀ e ∈ es, nodeKey e ∈ (buildNodes st es).2 := by
  induction es with
  | nil => intro st e he; simp at he
  | cons e' es ih =>
    intro st e he
    rcases List.mem_cons.mp he with h | h
    · subst h
      simp only [buildNodes]
      apply buildNodes_mono
      simp only [add_node]
      split
      · assumption
      · exact List.mem_append.mpr (Or.inr (by simp))
    · exact ih _ e h

/-- Members of the groups after one `insertGroup` step: existing members,
or the inserted entity in the group keyed by its tag. -/
theorem insertGroup_spec (R : EntityD → Prop) :
    ∀ gs : List (String × List EntityD), ∀ s : String, ∀ e : EntityD,
      (∀ g ∈ gs, ∀ x ∈ g.2, R x ∧ x.source.getD "default" = g.1) →
      R e → e.source.getD "default" = s →
      ∀ g ∈ insertGroup gs s e, ∀ x ∈ g.2, R x ∧ x.source.getD "default" = g.1 := by
  intro gs
  induction gs with
  | nil =>
    intro s e _ hRe hse g hg x hx
    simp only [insertGroup, List.mem_singleton] at hg
    subst hg
    simp only [List.mem_singleton] at hx
    subst hx
    exact ⟨hRe, hse⟩
  | cons kg gs ih =>
    intro s e hgs hRe hse g hg x hx
    simp only [insertGroup] at hg
    split at hg
    · rename_i hk
      rcases List.mem_cons.mp hg with h | h
      · subst h
        rcases List.mem_append.mp hx with h | h
        · exact hgs kg (List.mem_cons_self _ _) x h
        · simp only [List.mem_singleton] at h
          subst h
          exact ⟨hRe, by rw [hse, hk]⟩
      · exact hgs g (List.mem_cons_of_mem _ h) x hx
    · rcases List.mem_cons.mp hg with h | h
      · subst h
        exact hgs kg (List.mem_cons_self _ _) x hx
      · exact ih s e (fun g' hg' => hgs g' (List.mem_cons_of_mem _ hg')) hRe hse g h x hx

/-- Every entity in any group of `groupBySource` comes from the input
list and carries the source tag of the group. -/
theorem groupBySource_spec (es : List EntityD) :
    ∀ g ∈ groupBySource es, ∀ x ∈ g.2, x ∈ es ∧ x.source.getD "default" = g.1 := by
  have main : ∀ l : List EntityD, ∀ gs : List (String × List EntityD),
      (∀ g ∈ gs, ∀ x ∈ g.2, x ∈ es ∧ x.source.getD "default" = g.1) →
      (∀ x ∈ l, x ∈ es) →
      ∀ g ∈ l.foldl (fun gs' e => insertGroup gs' (e.source.getD "default") e) gs,
        ∀ x ∈ g.2, x ∈ es ∧ x.source.getD "default" = g.1 := by
    intro l
    induction l with
    | nil => intro gs hgs _ g hg x hx; exact hgs g hg x hx
    | cons e l ih =>
      intro gs hgs hl g hg x hx
      simp only [List.foldl_cons] at hg
      refine ih _ ?_ (fun y hy => hl y (List.mem_cons_of_mem _ hy)) g hg x hx
      exact insertGroup_spec (fun y => y ∈ es) gs _ e hgs
        (hl e (List.mem_cons_self _ _)) rfl
  intro g hg x hx
  exact main es [] (by simp) (fun x hx => hx) g hg x hx

/-- Every edge of the pair loop of one group arises from an ordered related
pair of that group. -/
theorem pairEdges_spec : ∀ g : List EntityD, ∀ ed ∈ pairEdges g,
    ∃ e1 e2, e1 ∈ g ∧ e2 ∈ g ∧ are_related e1 e2 = true ∧ ed = mkEdge e1 e2 := by
  intro g
  induction g with
  | nil => intro ed hed; simp [pairEdges] at hed
  | cons e1 rest ih =>
    intro ed hed
    simp only [pairEdges, List.mem_append] at hed
    rcases hed with h | h
    · simp only [List.mem_map] at h
      obtain ⟨e2, he2, rfl⟩ := h
      have hmem := List.mem_of_mem_filter he2
      have hrel := List.of_mem_filter he2
      exact ⟨e1, e2, List.mem_cons_self _ _, List.mem_cons_of_mem _ hmem, hrel, rfl⟩
    · obtain ⟨a, b, ha, hb, hrel, heq⟩ := ih ed h
      exact ⟨a, b, List.mem_cons_of_mem _ ha, List.mem_cons_of_mem _ hb, hrel, heq⟩

/-- Every edge `_create_edges` builds arises from an ordered pair of input
entities carrying the same source tag and passing `_are_related`. -/
theorem create_edges_spec (es : List EntityD) (ed : EdgeR)
    (hed : ed ∈ create_edges es) :
    ∃ e1 e2, e1 ∈ es ∧ e2 ∈ es
      ∧ e1.source.getD "default" = e2.source.getD "default"
      ∧ are_related e1 e2 = true ∧ ed = mkEdge e1 e2 := by
  rw [create_edges, List.mem_flatMap] at hed
  obtain ⟨g, hg, hpe⟩ := hed
  obtain ⟨e1, e2, h1, h2, hrel, heq⟩ := pairEdges_spec g.2 ed hpe
  have s1 := groupBySource_spec es g hg e1 h1
  have s2 := groupBySource_spec es g hg e2 h2
  exact ⟨e1, e2, s1.1, s2.1, by rw [s1.2, s2.2], hrel, heq⟩

/-! ## Graph claim theorems -/

/-- C5: `build_graph` deduplicates nodes by key with first-occurrence-wins
semantics — node ids are duplicate-free, every node is built from the
first input entity whose node key is that id, and concretely two entities
sharing id "A" yield exactly one node carrying the value of the first
"x" as its label, the later duplicate dropped without error. -/
theorem build_graph_dedup_first_wins :
    (∀ es : List EntityD,
        ((build_graph es).nodes.map NodeR.id).Nodup ∧
        ∀ n ∈ (build_graph es).nodes,
          ∃ e, es.find? (fun e' => nodeKey e' == n.id) = some e ∧ n = mkNode e) ∧
    (build_graph [⟨some "A", some "x", none, none, none⟩,
                  ⟨some "A", some "y", none, none, none⟩]).nodes
      = [⟨"A", "x", "unknown", "default", ⟨some "A", some "x", none, none, none⟩⟩] := by
  constructor
  · intro es
    constructor
    · have h2 := buildNodes_nodup es ([], []) (by simp)
      rwa [buildNodes_ids es ([], []) (by simp)] at h2
    · intro n hn
      rcases buildNodes_first_wins es [] [] (by simp) n hn with h | ⟨e, hfind, hne, _⟩
      · simp at h
      · exact ⟨e, hfind, hne⟩
  · decide

/-- C7: every edge `build_graph` creates arises from a pair of input
entities carrying the same source tag (cross-source pairs are never even
tested): edges arise only within a single source group. -/
theorem edges_within_single_source (es : List EntityD) (ed : EdgeR)
    (hed : ed ∈ (build_graph es).edges) :
    ∃ e1 e2, e1 ∈ es ∧ e2 ∈ es
      ∧ e1.source.getD "default" = e2.source.getD "default"
      ∧ are_related e1 e2 = true ∧ ed = mkEdge e1 e2 :=
  create_edges_spec es ed hed

/-- Two same-source, same-type entities used to witness the edge claims. -/
def docEnt1 : EntityD := ⟨some "a", some "v", some "t", some "doc1", none⟩

/-- Second witness entity of the same source group. -/
def docEnt2 : EntityD := ⟨some "b", some "w", some "t", some "doc1", none⟩

/-- C7 witness: the edge between the two concrete doc1 entities arises
from a same-source related pair. -/
theorem edges_within_single_source_witness :
    (mkEdge docEnt1 docEnt2 ∈ (build_graph [docEnt1, docEnt2]).edges) ∧
    (∃ e1 e2, e1 ∈ [docEnt1, docEnt2] ∧ e2 ∈ [docEnt1, docEnt2]
      ∧ e1.source.getD "default" = e2.source.getD "default"
      ∧ are_related e1 e2 = true ∧ mkEdge docEnt1 docEnt2 = mkEdge e1 e2) :=
  ⟨by decide, edges_within_single_source [docEnt1, docEnt2] (mkEdge docEnt1 docEnt2) (by decide)⟩

/-- The property C4 states: both endpoints of every edge occur among the
ids of the returned node set. -/
def edgeEndpointsOk (g : GraphR) : Bool :=
  g.edges.all fun ed =>
    (g.nodes.any fun n => some n.id == ed.source)
      && (g.nodes.any fun n => some n.id == ed.target)

/-- Entity without an id (edge creation then records `None` endpoints
while the node falls back to the value key). -/
def anonEnt1 : EntityD := ⟨none, some "x", some "t", none, none⟩

/-- Second id-less entity of the same type. -/
def anonEnt2 : EntityD := ⟨none, some "y", some "t", none, none⟩

/-- C4 counterexample: for two id-less entities of the same type,
`build_graph` creates an edge whose endpoints (`None`) are not ids of any
node — the nodes fall back to the value keys "x" and "y" — so the claimed
endpoint-closure property fails. -/
theorem edge_endpoints_counterexample :
    ¬ edgeEndpointsOk (build_graph [anonEnt1, anonEnt2]) = true := by decide

/-- The entity carries a truthy id (present and non-empty), the only case
in which node keys and edge endpoints agree. -/
def truthyId (e : EntityD) : Bool :=
  match e.id with
  | some s => !(s == "")
  | none => false

/-- C4 amended: when every input entity carries a truthy (present,
non-empty) id, every edge's source and target occur as ids of nodes in
the returned node set (duplicate ids included: the endpoint id is then
the first-wins node's id). -/
theorem edge_endpoints_in_nodes (es : List EntityD)
    (h : es.all truthyId = true) :
    edgeEndpointsOk (build_graph es) = true := by
  rw [edgeEndpointsOk, List.all_eq_true]
  intro ed hed
  obtain ⟨e1, e2, h1, h2, _, _, heq⟩ := create_edges_spec es ed hed
  rw [List.all_eq_true] at h
  have key : ∀ e ∈ es, (build_graph es).nodes.any (fun n => some n.id == e.id) = true := by
    intro e he
    have ht := h e he
    obtain ⟨s, hs, hne⟩ : ∃ s, e.id = some s ∧ s ≠ "" := by
      unfold truthyId at ht
      cases hid : e.id with
      | none => rw [hid] at ht; simp at ht
      | some s => rw [hid] at ht; simp at ht; exact ⟨s, rfl, ht⟩
    have hkey : nodeKey e = s := by simp [nodeKey, hs, hne]
    have hcov := buildNodes_covers es ([], []) e he
    rw [buildNodes_ids es ([], []) (by simp)] at hcov
    rw [List.mem_map] at hcov
    obtain ⟨n, hn, hnid⟩ := hcov
    rw [List.any_eq_true]
    exact ⟨n, hn, by simp [hnid, hkey, hs]⟩
  have k1 := key e1 h1
  have k2 := key e2 h2
  have hsrc : ed.source = e1.id := by rw [heq]; rfl
  have htgt : ed.target = e2.id := by rw [heq]; rfl
  rw [Bool.and_eq_true, hsrc, htgt]
  exact ⟨k1, k2⟩

/-- C4 witness: for the concrete truthy-id entities, both endpoints of
every created edge are node ids. -/
theorem edge_endpoints_in_nodes_witness :
    ([docEnt1, docEnt2].all truthyId = true) ∧
    (edgeEndpointsOk (build_graph [docEnt1, docEnt2]) = true) :=
  ⟨by decide, edge_endpoints_in_nodes [docEnt1, docEnt2] (by decide)⟩

/-! ## Agent claim theorems -/

/-- C9: when the selected variant procedure raises, `execute` does not
propagate the exception: it returns a record with status "failed" whose
error field holds the exception's message, and the record still carries
`end_time` and `duration_seconds`. -/
theorem execute_captures_variant_error (startT endT : Nat) (st : AgentState)
    (task msg : String) (plog : List LogEntry) :
    (execute_with startT endT st task (Except.error (msg, plog))).1.status = "failed"
      ∧ (execute_with startT endT st task (Except.error (msg, plog))).1.error = some msg
      ∧ (execute_with startT endT st task (Except.error (msg, plog))).1.end_time = endT
      ∧ (execute_with startT endT st task (Except.error (msg, plog))).1.duration_seconds
          = (endT : Int) - (startT : Int) :=
  ⟨rfl, rfl, rfl, rfl⟩

/-- C10: for an agent type outside the four known variants, `execute`
does not reject the unknown tag: the record completes with status
"completed", output `"Unknown agent type: " ++ tag`, and no error. -/
theorem execute_unknown_agent_type (clock : Nat → Nat) (startT endT : Nat)
    (st : AgentState) (task : String) (params : Params)
    (h : st.agent_type ∉ ["research", "analysis", "summary", "investigation"]) :
    (execute clock startT endT st task params).1.status = "completed"
      ∧ (execute clock startT endT st task params).1.output
          = some ("Unknown agent type: " ++ st.agent_type)
      ∧ (execute clock startT endT st task params).1.error = none := by
  simp only [List.mem_cons, List.not_mem_nil, or_false, not_or] at h
  obtain ⟨h1, h2, h3, h4⟩ := h
  simp [execute, execute_with, run_variant, h1, h2, h3, h4]

/-- Concrete agent state with an unknown agent type. -/
def mysterySt : AgentState := ⟨"mystery", [], []⟩

/-- C10 witness: the unknown tag "mystery" completes with the fallback
output and no error. -/
theorem execute_unknown_agent_type_witness :
    (mysterySt.agent_type ∉ ["research", "analysis", "summary", "investigation"])
      ∧ ((execute (fun n => n) 0 1 mysterySt "t" ⟨none, none⟩).1.status = "completed"
         ∧ (execute (fun n => n) 0 1 mysterySt "t" ⟨none, none⟩).1.output
             = some ("Unknown agent type: " ++ mysterySt.agent_type)
         ∧ (execute (fun n => n) 0 1 mysterySt "t" ⟨none, none⟩).1.error = none) :=
  ⟨by decide,
   execute_unknown_agent_type (fun n => n) 0 1 mysterySt "t" ⟨none, none⟩ (by decide)⟩

/-- Concrete research agent as constructed (`execution_log` starts empty). -/
def researchSt : AgentState := ⟨"research", ["m1"], []⟩

/-- C3 (divergence witness): the returned record's `steps` field is the
empty list `execute` initialized it to — the per-call entries are never
appended to it — and on a second `execute` call of the same agent the
returned `execution_log` still carries the first call's three entries in
front of the second call's. -/
theorem steps_empty_and_log_leaks :
    ((execute (fun n => n) 0 1 researchSt "t" ⟨none, none⟩).1.steps = [])
      ∧ ((execute (fun n => n) 2 3
            ((execute (fun n => n) 0 1 researchSt "t" ⟨none, none⟩).2)
            "t" ⟨none, none⟩).1.execution_log
          = some [⟨0, "Starting research agent"⟩, ⟨1, "Querying model: m1"⟩,
                  ⟨2, "Research completed"⟩, ⟨3, "Starting research agent"⟩,
                  ⟨4, "Querying model: m1"⟩, ⟨5, "Research completed"⟩]) := by
  constructor
  · rfl
  · decide

end AmberICI
